import Mathlib

/-!
Verification of the machine-abstraction core of `nixops/backends/__init__.py`
(class `MachineState`, class `CheckResult`, and the registry functions
`create_definition` / `create_state`).

The Python code is embedded shallowly: the persisted/transient attributes of a
`MachineState` object become a Lean structure; methods that talk to the outside
world (SSH commands, file uploads, port waits) are modelled as functions that
return the list of externally visible events they would perform, with remote
failures injected through a success oracle `env : Nat → Bool` (the n-th remote
operation of a call succeeds iff `env n = true`, a failing operation raises and
aborts the call, mirroring the Python exception flow).
-/

/-- Lifecycle states of a machine resource. The constants `MISSING`, `STARTING`,
`UP`, `UNREACHABLE`, `STOPPED`, `RESCUE` are declared on
`nixops.resources.ResourceState`, which is outside the embedded sources;
modelled from the spec, whose data model lists exactly these six values. -/
inductive Lifecycle where
  | MISSING
  | STARTING
  | UP
  | UNREACHABLE
  | STOPPED
  | RESCUE
deriving DecidableEq, Repr

/-- Options of one configured secret, the fields read by `send_keys`
(`opts['text']`, `opts['user']`, `opts['group']`, `opts['permissions']`). -/
structure KeyOpts where
  text : String
  user : String
  group : String
  permissions : String
deriving DecidableEq, Repr

/-- The attributes of a `MachineState` object that the embedded methods read or
write: `self.state` (lifecycle), `self.ssh_pinged` (persisted),
`self._ssh_pinged_this_time` (transient), `self.store_keys_on_machine`,
`self.keys` (a dict, embedded as an association list with distinct names),
`self.ssh_port`, `self.name`, `self.depl.tempdir`.
`really_fast_connection` stands for the result of the overridable method
`has_really_fast_connection` (the base class returns `False`, backends
override it); `ssh_name` stands for the result of the overridable
`get_ssh_name`. -/
structure MachineState where
  state : Lifecycle
  ssh_pinged : Bool
  sshPingedThisTime : Bool
  store_keys_on_machine : Bool
  keys : List (String × KeyOpts)
  ssh_port : Nat
  name : String
  tempdir : String
  really_fast_connection : Bool
  ssh_name : String
deriving DecidableEq, Repr

/-- Externally visible actions of a `MachineState` method call:
`run cmd chk` is an invocation of `self.ssh.run_command` with final command
string `cmd` and keyword `check = chk`; `upload` is `self.upload_file`;
`waitPort port wantOpen` is `nixops.util.wait_for_tcp_port`; `sshReset` is
`self.ssh.reset()`; `localWrite` / `localRemove` are writes/removals of local
scratch files; `exec argv` is `self._logged_exec argv`. -/
inductive Event where
  | run (cmd : String) (chk : Bool)
  | upload (src tgt : String)
  | waitPort (port : Nat) (wantOpen : Bool)
  | sshReset
  | localWrite (path content : String)
  | localRemove (path : String)
  | exec (argv : List String)
deriving DecidableEq, Repr

/-- The locale-clearing string prepended by `run_command` in RESCUE state. -/
def localeClear : String := "export LANG= LC_ALL= LC_TIME=; "

/-- `MachineState.run_command`: the single chokepoint for remote execution.
This embeds its command-string transformation: in RESCUE state the
locale-clearing string is prepended, otherwise the command is passed through
unchanged (the transformed string is then handed to `self.ssh.run_command`). -/
def run_command (s : MachineState) (command : String) : String :=
  if s.state = Lifecycle.RESCUE then localeClear ++ command else command

/-- Python `str.split(sep)` on a single separator character: `splitOn '\n' l`
is the list of lines of `l` (an empty input gives one empty field, a trailing
separator a trailing empty field), as used on the captured `systemctl` output
in `_check`. -/
def splitOn (sep : Char) : List Char → List (List Char)
  | [] => [[]]
  | c :: rest =>
    if c = sep then [] :: splitOn sep rest
    else
      match splitOn sep rest with
      | [] => [[c]]
      | w :: ws => (c :: w) :: ws

/-- `hasInfix pat l` holds iff `pat` occurs as a contiguous substring of `l`
(an occurrence starting at some position), the containment test a regex
fragment `.* pat .*` performs on a line without newlines. -/
def hasInfix (pat : List Char) : List Char → Bool
  | [] => pat.isPrefixOf []
  | c :: rest => pat.isPrefixOf (c :: rest) || hasInfix pat rest

/-- The character class `[^ ]` of the unit-name patterns. -/
def notSpace (c : Char) : Bool := c ≠ ' '

/-- The character class `[^\.]` of the inactive-mount pattern. -/
def notDot (c : Char) : Bool := c ≠ '.'

/-- Embedding of the two structurally identical anchored patterns of `_check`
(`([^ ]+) .* failed .*` and `([^ ]+) .* activating .*`, with `status` standing
for the middle literal): the line must start with a nonempty run of non-space
characters (the captured unit name), followed by one space, followed by any
text containing the word `status` with a space on each side. Returns the
captured group. -/
def reStatusMatch (status : List Char) (l : List Char) : Option (List Char) :=
  let tok := l.takeWhile notSpace
  let rest := l.dropWhile notSpace
  match rest with
  | _ :: r =>
    if tok ≠ [] ∧ hasInfix (' ' :: status ++ [' ']) r then some tok else none
  | [] => none

/-- Embedding of the third anchored pattern of `_check`,
`([^\.]+\.mount) .* inactive .*`: a nonempty dot-free run, then literally
`.mount`, then one space, then any text containing ` inactive ` with spaces.
Returns the captured group, `<dot-free stem>.mount`. -/
def reMountInactive (l : List Char) : Option (List Char) :=
  let pre := l.takeWhile notDot
  let rest := l.dropWhile notDot
  if pre ≠ [] ∧ ((".mount ".toList).isPrefixOf rest)
     ∧ hasInfix (" inactive ".toList) (rest.drop 7)
  then some (pre ++ (".mount".toList)) else none

/-- The unit-classification loop of `_check`: for every line, a ` failed `
match appends the unit to `failed_units`, an ` activating ` match appends it to
`in_progress_units`, and an inactive-mount match appends it to `failed_units`
unless the captured name starts with `sys-` or `dev-`. -/
def checkUnits (lines : List (List Char)) : List (List Char) × List (List Char) :=
  lines.foldl
    (fun acc l =>
      let acc1 := match reStatusMatch ("failed".toList) l with
        | some u => (acc.1 ++ [u], acc.2)
        | none => acc
      let acc2 := match reStatusMatch ("activating".toList) l with
        | some u => (acc1.1, acc1.2 ++ [u])
        | none => acc1
      match reMountInactive l with
      | some u =>
        if ("sys-".toList).isPrefixOf u ∨ ("dev-".toList).isPrefixOf u then acc2
        else (acc2.1 ++ [u], acc2.2)
      | none => acc2)
    ([], [])

/-- The `CheckResult` object: every field starts out as Python `None`
(here `none`), `messages` as the empty list. -/
structure CheckResult where
  exists_ : Option Bool := none
  is_up : Option Bool := none
  is_reachable : Option Bool := none
  disks_ok : Option Bool := none
  failed_units : Option (List (List Char)) := none
  in_progress_units : Option (List (List Char)) := none
  load : Option (List String) := none
  messages : List String := []
deriving DecidableEq, Repr

/-- `MachineState._check`: `avg` is the result of `get_load_avg()` (which
swallows both SSH failure classes into `none`); `out` is the captured output of
`systemctl --all --full --no-legend`, consulted only on the success branch.
On `avg = none` the state is demoted to UNREACHABLE only from UP and
`is_reachable` is set false; otherwise the state becomes UP, both ping flags
are set, and the unit lists are parsed from the split output lines. -/
def _check (s : MachineState) (avg : Option (List String)) (out : List Char) :
    MachineState × CheckResult :=
  match avg with
  | none =>
    ({ s with state := if s.state = Lifecycle.UP then Lifecycle.UNREACHABLE else s.state },
     { is_reachable := some false })
  | some a =>
    let parsed := checkUnits (splitOn '\n' out)
    ({ s with state := Lifecycle.UP, ssh_pinged := true, sshPingedThisTime := true },
     { is_reachable := some true, load := some a,
       failed_units := some parsed.1, in_progress_units := some parsed.2 })

/-- ASCII single-quote character, written via its code point. -/
def sqc : Char := Char.ofNat 39

/-- Shell quoting of a remote path as in `send_keys`:
`"'" + outfile.replace("'", "'\\''") + "'"` — the path is wrapped in single
quotes and every embedded single quote becomes the four-character sequence
quote backslash quote quote. -/
def shellQuote (path : String) : String :=
  String.mk ([sqc] ++ (path.toList.flatMap fun c =>
    if c = sqc then [sqc, '\\', sqc, sqc] else [c]) ++ [sqc])

/-- Outcome of a `send_keys` call: the events performed, the local scratch
files still present on disk when the call ends, and whether it completed
without a raised remote failure. -/
structure RunOut where
  events : List Event
  localFiles : List String
  success : Bool
deriving DecidableEq, Repr

/-- Local scratch path used for every key of a machine:
`self.depl.tempdir + "/key-" + self.name`. -/
def keyTmpPath (s : MachineState) : String :=
  s.tempdir ++ "/key-" ++ s.name

/-- The `rm -f` command of the per-key loop of `send_keys`. -/
def rmKeyCmd (k : String) : String :=
  "rm -f " ++ shellQuote ("/run/keys/" ++ k)

/-- The combined `chown … && chmod …` command of the per-key loop of
`send_keys` (ownership first, then permissions, joined with ` && `). -/
def chownChmodCmd (k : String) (opts : KeyOpts) : String :=
  let esc := shellQuote ("/run/keys/" ++ k)
  "chown " ++ String.mk [sqc] ++ opts.user ++ ":" ++ opts.group ++ String.mk [sqc]
    ++ " " ++ esc ++ " && "
    ++ "chmod " ++ String.mk [sqc] ++ opts.permissions ++ String.mk [sqc] ++ " " ++ esc

/-- The directory-creation command issued by `send_keys` before the loop. -/
def mkdirKeysCmd : String :=
  "mkdir -m 0750 -p /run/keys && chown root:keys /run/keys"

/-- One iteration body of the `send_keys` loop on key `k`, mirroring the
Python statement order: write the local scratch file, run `rm -f` on the
remote target, upload, run `chown && chmod`, remove the scratch file.
`n` numbers the remote operations (each consulted in `env`); a failing remote
operation raises, ending the call with the scratch file still on disk. -/
def sendKeysLoop (s : MachineState) (env : Nat → Bool) :
    Nat → List (String × KeyOpts) → List Event × List String × Bool × Nat
  | n, [] => ([], [], true, n)
  | n, (k, opts) :: rest =>
    let tmp := keyTmpPath s
    let w := Event.localWrite tmp opts.text
    let rmE := Event.run (run_command s (rmKeyCmd k)) true
    if env n = false then ([w, rmE], [tmp], false, n + 1)
    else
      let upE := Event.upload tmp ("/run/keys/" ++ k)
      if env (n + 1) = false then ([w, rmE, upE], [tmp], false, n + 2)
      else
        let ccE := Event.run (run_command s (chownChmodCmd k opts)) true
        if env (n + 2) = false then ([w, rmE, upE, ccE], [tmp], false, n + 3)
        else
          let res := sendKeysLoop s env (n + 3) rest
          ([w, rmE, upE, ccE, Event.localRemove tmp] ++ res.1, res.2.1, res.2.2.1, res.2.2.2)

/-- `MachineState.send_keys`: returns immediately with no action when in
RESCUE state or when `store_keys_on_machine` is set; otherwise creates the
`/run/keys` directory, runs the per-key loop, and touches the sentinel file
`/run/keys/done`. Remote failures (numbered in invocation order, succeeding
iff `env n = true`) raise and abort the call. -/
def send_keys (env : Nat → Bool) (s : MachineState) : RunOut :=
  if s.state = Lifecycle.RESCUE then ⟨[], [], true⟩
  else if s.store_keys_on_machine then ⟨[], [], true⟩
  else
    let mkdirE := Event.run (run_command s mkdirKeysCmd) true
    if env 0 = false then ⟨[mkdirE], [], false⟩
    else
      let res := sendKeysLoop s env 1 s.keys
      if res.2.2.1 = false then ⟨mkdirE :: res.1, res.2.1, false⟩
      else
        let touchE := Event.run (run_command s "touch /run/keys/done") true
        if env res.2.2.2 = false then ⟨mkdirE :: res.1 ++ [touchE], res.2.1, false⟩
        else ⟨mkdirE :: res.1 ++ [touchE], res.2.1, true⟩

/-- `MachineState.reboot`: issues a detached delayed reboot when in RESCUE
state (through `run_command`, so the locale-clearing applies there) and
`systemctl reboot` otherwise, both with `check=False`; sets the state to
STARTING and resets the SSH connection. -/
def reboot (s : MachineState) : MachineState × List Event :=
  let cmd := if s.state = Lifecycle.RESCUE then "(sleep 2; reboot) &" else "systemctl reboot"
  ({ s with state := Lifecycle.STARTING },
   [Event.run (run_command s cmd) false, Event.sshReset])

/-- `MachineState.reboot_sync`: reboot, wait for the SSH port to close then to
reopen, set the state to UP and both ping flags, then run `send_keys`. -/
def reboot_sync (env : Nat → Bool) (s : MachineState) : MachineState × List Event :=
  let r := reboot s
  let s2 := { r.1 with state := Lifecycle.UP, ssh_pinged := true, sshPingedThisTime := true }
  let keysRun := send_keys env s2
  (s2, r.2 ++ [Event.waitPort s.ssh_port false, Event.waitPort s.ssh_port true] ++ keysRun.events)

/-- `MachineState.wait_for_ssh(check)`: returns immediately when
`self.ssh_pinged and (not check or self._ssh_pinged_this_time)`; otherwise
waits for the SSH port, sets the state to UP unless it is RESCUE, and sets
both ping flags. -/
def wait_for_ssh (s : MachineState) (check : Bool) : MachineState × List Event :=
  if s.ssh_pinged && (!check || s.sshPingedThisTime) then (s, [])
  else
    ({ s with state := if s.state ≠ Lifecycle.RESCUE then Lifecycle.UP else s.state,
              ssh_pinged := true, sshPingedThisTime := true },
     [Event.waitPort s.ssh_port true])

/-- `MachineState.copy_closure_to`: unless the machine has a really fast
connection, first ask the target to realize the dependency closure from its
substituters (`nix-store -j 4 -r --ignore-unknown …`, with `check=False`);
then run `nix-copy-closure --to <target> <path>`, adding `--gzip` exactly when
the connection is not really fast. `closure` is the local
`nix-store -qR path` query result; the copy target `root@<ssh name>` follows
the addressing used by `upload_file`/`download_file`. -/
def copy_closure_to (s : MachineState) (closure : List String) (path : String) : List Event :=
  (if s.really_fast_connection then []
   else [Event.run ("nix-store -j 4 -r --ignore-unknown " ++ String.intercalate " " closure) false])
  ++ [Event.exec (["nix-copy-closure", "--to", "root@" ++ s.ssh_name, path]
      ++ if s.really_fast_connection then [] else ["--gzip"])]

/-- `MachineState.has_really_fast_connection`: the base class returns `False`;
backends override it, which the model reflects through the
`really_fast_connection` attribute. -/
def has_really_fast_connection (s : MachineState) : Bool :=
  s.really_fast_connection

/-- The machine-definition variants iterated over by `create_definition`, in
source order. -/
inductive DefinitionVariant where
  | none_ | virtualbox | ec2 | hetzner | gce | libvirtd | container
deriving DecidableEq, Repr

/-- The resource-state variants iterated over by `create_state`, in source
order. -/
inductive StateVariant where
  | none_ | virtualbox | libvirtd | ec2 | gce | hetzner | container
  | ec2Keypair | sshKeypair | sqsQueue | iamRole | s3Bucket
  | ec2SecurityGroup | ec2PlacementGroup | ebsVolume | elasticIP
  | gceDisk | gceImage | gceStaticIP | gceNetwork | gceHTTPHealthCheck
  | gceTargetPool | gceForwardingRule | gseBucket
deriving DecidableEq, Repr

/-- Modelled from the spec: the `get_type()` tag of each machine-definition
variant. The concrete backend classes live outside the embedded sources; the
spec names the `ec2` tag explicitly, the remaining tags follow the backends'
`targetEnv` naming. -/
def defGetType : DefinitionVariant → String
  | .none_ => "none"
  | .virtualbox => "virtualbox"
  | .ec2 => "ec2"
  | .hetzner => "hetzner"
  | .gce => "gce"
  | .libvirtd => "libvirtd"
  | .container => "container"

/-- Modelled from the spec: the `get_type()` tag of each resource-state
variant. The concrete classes live outside the embedded sources; the spec
names the `ec2` tag explicitly, the remaining tags follow the resources'
type naming. -/
def stateGetType : StateVariant → String
  | .none_ => "none"
  | .virtualbox => "virtualbox"
  | .libvirtd => "libvirtd"
  | .ec2 => "ec2"
  | .gce => "gce"
  | .hetzner => "hetzner"
  | .container => "container"
  | .ec2Keypair => "ec2-keypair"
  | .sshKeypair => "ssh-keypair"
  | .sqsQueue => "sqs-queue"
  | .iamRole => "iam-role"
  | .s3Bucket => "s3-bucket"
  | .ec2SecurityGroup => "ec2-security-group"
  | .ec2PlacementGroup => "ec2-placement-group"
  | .ebsVolume => "ebs-volume"
  | .elasticIP => "elastic-ip"
  | .gceDisk => "gce-disk"
  | .gceImage => "gce-image"
  | .gceStaticIP => "gce-static-ip"
  | .gceNetwork => "gce-network"
  | .gceHTTPHealthCheck => "gce-http-health-check"
  | .gceTargetPool => "gce-target-pool"
  | .gceForwardingRule => "gce-forwarding-rule"
  | .gseBucket => "gse-bucket"

/-- The lookup loop shared by both registry functions: return the first listed
variant whose tag equals the requested one, or raise `UnknownBackend` with a
message naming the tag. -/
def findByTag {α : Type} (getType : α → String) (errorKind : String) (tag : String) :
    List α → Except String α
  | [] => Except.error ("unknown " ++ errorKind ++ " type ‘" ++ tag ++ "’")
  | i :: rest =>
    if tag = getType i then Except.ok i else findByTag getType errorKind tag rest

/-- `create_definition`: dispatch on the `targetEnv` tag over the seven
machine-definition variants, in source order. -/
def create_definition (target_env : String) : Except String DefinitionVariant :=
  findByTag defGetType "backend" target_env
    [DefinitionVariant.none_, DefinitionVariant.virtualbox, DefinitionVariant.ec2,
     DefinitionVariant.hetzner, DefinitionVariant.gce, DefinitionVariant.libvirtd,
     DefinitionVariant.container]

/-- `create_state`: dispatch on the resource type tag over the resource-state
variants, in source order. -/
def create_state (type : String) : Except String StateVariant :=
  findByTag stateGetType "resource" type
    [StateVariant.none_, StateVariant.virtualbox, StateVariant.libvirtd,
     StateVariant.ec2, StateVariant.gce, StateVariant.hetzner, StateVariant.container,
     StateVariant.ec2Keypair, StateVariant.sshKeypair, StateVariant.sqsQueue,
     StateVariant.iamRole, StateVariant.s3Bucket, StateVariant.ec2SecurityGroup,
     StateVariant.ec2PlacementGroup, StateVariant.ebsVolume, StateVariant.elasticIP,
     StateVariant.gceDisk, StateVariant.gceImage, StateVariant.gceStaticIP,
     StateVariant.gceNetwork, StateVariant.gceHTTPHealthCheck, StateVariant.gceTargetPool,
     StateVariant.gceForwardingRule, StateVariant.gseBucket]

/-- The upload events of an event list, with source and target paths. -/
def uploadsOf (evs : List Event) : List (String × String) :=
  evs.filterMap fun e =>
    match e with
    | Event.upload a b => some (a, b)
    | _ => none

/-- Number of occurrences of `pat` as a contiguous substring of `l`, one per
starting position. -/
def countInfix (pat : List Char) : List Char → Nat
  | [] => 0
  | c :: rest => (if pat.isPrefixOf (c :: rest) then 1 else 0) + countInfix pat rest

/-- A concrete machine state with one configured secret, used to instantiate
the theorems below. -/
def sampleState (st : Lifecycle) : MachineState :=
  { state := st, ssh_pinged := false, sshPingedThisTime := false,
    store_keys_on_machine := false,
    keys := [("secret", { text := "hunter2", user := "root", group := "keys", permissions := "0600" })],
    ssh_port := 22, name := "m", tempdir := "/tmp",
    really_fast_connection := false, ssh_name := "host" }

/-- C1: `_check` sets `lifecycleState` to UNREACHABLE only when the state was
UP before the call and the load-average query failed; if the state was
anything other than UP and the load query fails, the state is left unchanged
and the `CheckResult` has `is_reachable = false`. -/
theorem check_demotes_only_from_up (s : MachineState) (avg : Option (List String))
    (out : List Char) :
    ((_check s avg out).1.state = Lifecycle.UNREACHABLE →
      s.state = Lifecycle.UNREACHABLE ∨ (s.state = Lifecycle.UP ∧ avg = none)) ∧
    (avg = none → s.state ≠ Lifecycle.UP →
      (_check s avg out).1.state = s.state ∧
      (_check s avg out).2.is_reachable = some false) := by
  cases avg <;> cases h : s.state <;> simp [_check, h]

/-- Instantiation of `check_demotes_only_from_up`: a failing load query on a
machine that was UP demotes it, and on a STOPPED machine leaves the state
unchanged while reporting unreachable. -/
theorem check_demotes_only_from_up_witness :
    ((sampleState Lifecycle.UP).state = Lifecycle.UNREACHABLE ∨
      ((sampleState Lifecycle.UP).state = Lifecycle.UP ∧ (none : Option (List String)) = none)) ∧
    ((_check (sampleState Lifecycle.STOPPED) none []).1.state = (sampleState Lifecycle.STOPPED).state ∧
      (_check (sampleState Lifecycle.STOPPED) none []).2.is_reachable = some false) :=
  ⟨(check_demotes_only_from_up (sampleState Lifecycle.UP) none []).1 (by decide),
   (check_demotes_only_from_up (sampleState Lifecycle.STOPPED) none []).2 rfl (by decide)⟩

/-- C5: the four input/output pairs of the systemd-unit parsing of `_check`,
each checked on a one-line `systemctl` output through `_check` itself:
a `failed` service goes to `failed_units`; an `inactive` mount goes to
`failed_units`; an `inactive` mount with the reserved `sys-` name goes
nowhere; an `activating` service goes to `in_progress_units`. -/
theorem check_unit_parsing_cases :
    ((_check (sampleState Lifecycle.UP) (some ["0.1", "0.2", "0.3"])
        ("foo.service loaded active failed failed").toList).2.failed_units
        = some [("foo.service").toList] ∧
      (_check (sampleState Lifecycle.UP) (some ["0.1", "0.2", "0.3"])
        ("foo.service loaded active failed failed").toList).2.in_progress_units = some []) ∧
    ((_check (sampleState Lifecycle.UP) (some ["0.1", "0.2", "0.3"])
        ("bar.mount loaded active inactive dead").toList).2.failed_units
        = some [("bar.mount").toList] ∧
      (_check (sampleState Lifecycle.UP) (some ["0.1", "0.2", "0.3"])
        ("bar.mount loaded active inactive dead").toList).2.in_progress_units = some []) ∧
    ((_check (sampleState Lifecycle.UP) (some ["0.1", "0.2", "0.3"])
        ("sys-kernel-config.mount loaded active inactive dead").toList).2.failed_units = some [] ∧
      (_check (sampleState Lifecycle.UP) (some ["0.1", "0.2", "0.3"])
        ("sys-kernel-config.mount loaded active inactive dead").toList).2.in_progress_units = some []) ∧
    ((_check (sampleState Lifecycle.UP) (some ["0.1", "0.2", "0.3"])
        ("baz.service loaded activating start start").toList).2.failed_units = some [] ∧
      (_check (sampleState Lifecycle.UP) (some ["0.1", "0.2", "0.3"])
        ("baz.service loaded activating start start").toList).2.in_progress_units
        = some [("baz.service").toList]) := by
  refine ⟨⟨?_, ?_⟩, ⟨?_, ?_⟩, ⟨?_, ?_⟩, ⟨?_, ?_⟩⟩ <;> decide

/-- C4: `send_keys` on a machine in RESCUE state, or with
`store_keys_on_machine` set, performs no remote command, no upload and no
local filesystem write at all, for every failure oracle. -/
theorem send_keys_noop_rescue_or_stored (env : Nat → Bool) (s : MachineState)
    (h : s.state = Lifecycle.RESCUE ∨ s.store_keys_on_machine = true) :
    send_keys env s = ⟨[], [], true⟩ := by
  rcases h with h | h
  · simp [send_keys, h]
  · by_cases hr : s.state = Lifecycle.RESCUE <;> simp [send_keys, h, hr]

/-- Instantiation of `send_keys_noop_rescue_or_stored` at a machine in RESCUE
state with a configured secret. -/
theorem send_keys_noop_rescue_or_stored_witness :
    send_keys (fun _ => true) (sampleState Lifecycle.RESCUE) = ⟨[], [], true⟩ :=
  send_keys_noop_rescue_or_stored (fun _ => true) (sampleState Lifecycle.RESCUE)
    (Or.inl rfl)

/-- C6: `copy_closure_to` without a really fast connection first asks the
target to realize the dependency closure from its substituters (with exit-code
checking disabled) and then copies with `--gzip`; with a really fast
connection the substituter step is skipped and `--gzip` is not passed. -/
theorem copy_closure_policy (s : MachineState) (closure : List String) (path : String) :
    (has_really_fast_connection s = false →
      copy_closure_to s closure path =
        [Event.run ("nix-store -j 4 -r --ignore-unknown " ++ String.intercalate " " closure) false,
         Event.exec ["nix-copy-closure", "--to", "root@" ++ s.ssh_name, path, "--gzip"]]) ∧
    (has_really_fast_connection s = true →
      copy_closure_to s closure path =
        [Event.exec ["nix-copy-closure", "--to", "root@" ++ s.ssh_name, path]]) := by
  constructor <;> intro h <;>
    simp [copy_closure_to, has_really_fast_connection] at h ⊢ <;> simp [h]

/-- Instantiation of `copy_closure_policy` on the sample machine (slow
connection) and on its fast-connection variant. -/
theorem copy_closure_policy_witness :
    copy_closure_to (sampleState Lifecycle.UP) ["/nix/store/a", "/nix/store/b"] "/nix/store/a" =
      [Event.run ("nix-store -j 4 -r --ignore-unknown "
          ++ String.intercalate " " ["/nix/store/a", "/nix/store/b"]) false,
       Event.exec ["nix-copy-closure", "--to", "root@host", "/nix/store/a", "--gzip"]] ∧
    copy_closure_to { sampleState Lifecycle.UP with really_fast_connection := true }
        ["/nix/store/a"] "/nix/store/a" =
      [Event.exec ["nix-copy-closure", "--to", "root@host", "/nix/store/a"]] :=
  ⟨(copy_closure_policy (sampleState Lifecycle.UP) ["/nix/store/a", "/nix/store/b"]
      "/nix/store/a").1 rfl,
   (copy_closure_policy { sampleState Lifecycle.UP with really_fast_connection := true }
      ["/nix/store/a"] "/nix/store/a").2 rfl⟩

/-- A machine whose persisted `ssh_pinged` flag is set (say, loaded from the
state file of an earlier operation) but which has not been confirmed reachable
during the current operation. -/
def pingedEarlier : MachineState :=
  { sampleState Lifecycle.UP with ssh_pinged := true }

/-- C9, counterexample to the claim as stated: with `forceRecheck` unset,
`wait_for_ssh` is a no-op on a machine that was never confirmed reachable
during the current operation — the persisted `ssh_pinged` flag alone
suffices — so "no-op exactly when already confirmed this operation" fails. -/
theorem wait_for_ssh_claim_cex :
    ¬(((wait_for_ssh pingedEarlier false).2 = []) ↔
      pingedEarlier.sshPingedThisTime = true) := by decide

/-- C9, amended: `wait_for_ssh(check)` is a no-op exactly when the persisted
`ssh_pinged` flag is set and (`check` is unset or reachability was confirmed
during the current operation); otherwise it waits for the SSH port, sets the
state to UP unless it is RESCUE (RESCUE is never clobbered), and sets both the
persisted and the transient ping flags. -/
theorem wait_for_ssh_behavior (s : MachineState) (check : Bool) :
    ((wait_for_ssh s check).2 = [] ↔
      (s.ssh_pinged = true ∧ (check = false ∨ s.sshPingedThisTime = true))) ∧
    ((wait_for_ssh s check).2 = [] → (wait_for_ssh s check).1 = s) ∧
    ((wait_for_ssh s check).2 ≠ [] →
      (wait_for_ssh s check).1.state =
        (if s.state = Lifecycle.RESCUE then Lifecycle.RESCUE else Lifecycle.UP) ∧
      (wait_for_ssh s check).1.ssh_pinged = true ∧
      (wait_for_ssh s check).1.sshPingedThisTime = true ∧
      (wait_for_ssh s check).2 = [Event.waitPort s.ssh_port true]) := by
  cases hp : s.ssh_pinged <;> cases check <;> cases ht : s.sshPingedThisTime <;>
    by_cases hr : s.state = Lifecycle.RESCUE <;>
      simp [wait_for_ssh, hp, ht, hr]

/-- Instantiation of `wait_for_ssh_behavior`: a never-pinged STARTING machine
waits, comes out UP with both flags set, and a RESCUE machine keeps its
RESCUE state. -/
theorem wait_for_ssh_behavior_witness :
    ((wait_for_ssh (sampleState Lifecycle.STARTING) false).1.state =
        (if (sampleState Lifecycle.STARTING).state = Lifecycle.RESCUE
         then Lifecycle.RESCUE else Lifecycle.UP) ∧
      (wait_for_ssh (sampleState Lifecycle.STARTING) false).1.ssh_pinged = true ∧
      (wait_for_ssh (sampleState Lifecycle.STARTING) false).1.sshPingedThisTime = true ∧
      (wait_for_ssh (sampleState Lifecycle.STARTING) false).2 = [Event.waitPort 22 true]) ∧
    (wait_for_ssh (sampleState Lifecycle.RESCUE) false).1.state =
      (if (sampleState Lifecycle.RESCUE).state = Lifecycle.RESCUE
       then Lifecycle.RESCUE else Lifecycle.UP) :=
  ⟨(wait_for_ssh_behavior (sampleState Lifecycle.STARTING) false).2.2 (by decide),
   ((wait_for_ssh_behavior (sampleState Lifecycle.RESCUE) false).2.2 (by decide)).1⟩

/-- Occurrences of the locale-clearing string in `P ++ l` for the concrete
locale-clearing string `P`: exactly one more than in `l` (no suffix of `P`
is also a nonempty proper prefix of `P`, so no occurrence can straddle the
boundary). -/
theorem countInfix_localeClear_prepend (l : List Char) :
    countInfix localeClear.toList (localeClear.toList ++ l)
      = 1 + countInfix localeClear.toList l := by
  have h : localeClear.toList =
    ['e','x','p','o','r','t',' ','L','A','N','G','=',' ','L','C','_','A','L','L','=',
     ' ','L','C','_','T','I','M','E','=',';',' '] := rfl
  rw [h]
  simp [countInfix, List.isPrefixOf]

/-- C2: in RESCUE state `run_command` passes every command on with the
locale-clearing string prepended exactly once (whenever the command itself
does not already contain that string, the transformed command contains exactly
one occurrence of it); in every other state the command is passed through
unmodified. -/
theorem run_command_rescue_locale (s : MachineState) (cmd : String) :
    (s.state = Lifecycle.RESCUE →
      run_command s cmd = localeClear ++ cmd ∧
      (countInfix localeClear.toList cmd.toList = 0 →
        countInfix localeClear.toList (run_command s cmd).toList = 1)) ∧
    (s.state ≠ Lifecycle.RESCUE → run_command s cmd = cmd) := by
  refine ⟨fun h => ⟨by simp [run_command, h], fun h0 => ?_⟩, fun h => by simp [run_command, h]⟩
  have he : run_command s cmd = localeClear ++ cmd := by simp [run_command, h]
  rw [he]
  have ht : (localeClear ++ cmd).toList = localeClear.toList ++ cmd.toList := by
    simp [String.toList, String.data_append]
  rw [ht, countInfix_localeClear_prepend, h0]

/-- Instantiation of `run_command_rescue_locale` at a RESCUE machine with
command `ls /` (one prepended occurrence) and at an UP machine (unmodified). -/
theorem run_command_rescue_locale_witness :
    (run_command (sampleState Lifecycle.RESCUE) "ls /" = localeClear ++ "ls /" ∧
      countInfix localeClear.toList (run_command (sampleState Lifecycle.RESCUE) "ls /").toList = 1) ∧
    run_command (sampleState Lifecycle.UP) "ls /" = "ls /" :=
  ⟨⟨((run_command_rescue_locale (sampleState Lifecycle.RESCUE) "ls /").1 rfl).1,
    ((run_command_rescue_locale (sampleState Lifecycle.RESCUE) "ls /").1 rfl).2 (by decide)⟩,
   (run_command_rescue_locale (sampleState Lifecycle.UP) "ls /").2 (by decide)⟩

/-- A successful `findByTag` lookup returns a variant whose tag is the
requested one. -/
theorem findByTag_ok {α : Type} (g : α → String) (ek tag : String) :
    ∀ (l : List α) (v : α), findByTag g ek tag l = Except.ok v → g v = tag := by
  intro l
  induction l with
  | nil => intro v h; simp [findByTag] at h
  | cons i rest ih =>
    intro v h
    by_cases ht : tag = g i
    · simp [findByTag, ht] at h
      rw [← h, ← ht]
    · simp [findByTag, ht] at h
      exact ih v h

/-- A failed `findByTag` lookup produces the `unknown … type` message naming
the requested tag. -/
theorem findByTag_error {α : Type} (g : α → String) (ek tag : String) :
    ∀ (l : List α) (msg : String), findByTag g ek tag l = Except.error msg →
      msg = "unknown " ++ ek ++ " type ‘" ++ tag ++ "’" := by
  intro l
  induction l with
  | nil => intro msg h; simp [findByTag] at h; exact h.symm
  | cons i rest ih =>
    intro msg h
    by_cases ht : tag = g i
    · simp [findByTag, ht] at h
    · simp [findByTag, ht] at h
      exact ih msg h

/-- C7: `create_definition` and `create_state` return the variant whose
registered tag equals the given tag (in particular tag `ec2` yields the EC2
variant of each), and on any unregistered tag they fail with an
`UnknownBackend` message that contains the tag between the fixed message text
and the closing quote; no other outcome is possible. -/
theorem registry_lookup :
    create_definition "ec2" = Except.ok DefinitionVariant.ec2 ∧
    create_state "ec2" = Except.ok StateVariant.ec2 ∧
    (∀ tag v, create_definition tag = Except.ok v → defGetType v = tag) ∧
    (∀ tag v, create_state tag = Except.ok v → stateGetType v = tag) ∧
    (∀ tag msg, create_definition tag = Except.error msg →
      msg = "unknown backend type ‘" ++ (tag ++ "’")) ∧
    (∀ tag msg, create_state tag = Except.error msg →
      msg = "unknown resource type ‘" ++ (tag ++ "’")) ∧
    create_definition "bogus" = Except.error "unknown backend type ‘bogus’" ∧
    create_state "bogus" = Except.error "unknown resource type ‘bogus’" := by
  refine ⟨rfl, rfl, ?_, ?_, ?_, ?_, rfl, rfl⟩
  · intro tag v h; exact findByTag_ok defGetType "backend" tag _ v h
  · intro tag v h; exact findByTag_ok stateGetType "resource" tag _ v h
  · intro tag msg h
    rw [findByTag_error defGetType "backend" tag _ msg h]
    apply String.ext
    simp [String.data_append]
  · intro tag msg h
    rw [findByTag_error stateGetType "resource" tag _ msg h]
    apply String.ext
    simp [String.data_append]

/-- Instantiation of `registry_lookup`: a successful lookup at tag `gce` has
the matching tag, and the failure message at tag `bogus` decomposes around the
tag. -/
theorem registry_lookup_witness :
    defGetType DefinitionVariant.gce = "gce" ∧
    stateGetType StateVariant.sqsQueue = "sqs-queue" ∧
    ("unknown backend type ‘bogus’" : String) = "unknown backend type ‘" ++ ("bogus" ++ "’") :=
  ⟨registry_lookup.2.2.1 "gce" DefinitionVariant.gce rfl,
   registry_lookup.2.2.2.1 "sqs-queue" StateVariant.sqsQueue rfl,
   registry_lookup.2.2.2.2.1 "bogus" "unknown backend type ‘bogus’" rfl⟩

/-- The five events of one successful `send_keys` loop iteration, in the
Python statement order: write the local scratch copy, delete the remote file,
upload, set ownership then permissions (one `chown … && chmod …` command),
delete the local scratch copy. -/
def perKeyEvents (s : MachineState) (kv : String × KeyOpts) : List Event :=
  [Event.localWrite (keyTmpPath s) kv.2.text,
   Event.run (run_command s (rmKeyCmd kv.1)) true,
   Event.upload (keyTmpPath s) ("/run/keys/" ++ kv.1),
   Event.run (run_command s (chownChmodCmd kv.1 kv.2)) true,
   Event.localRemove (keyTmpPath s)]

/-- With every remote operation succeeding, the `send_keys` loop performs the
five per-key steps for each key in order and leaves no scratch file behind. -/
theorem sendKeysLoop_allOk (s : MachineState) (env : Nat → Bool) (henv : ∀ n, env n = true) :
    ∀ (keys : List (String × KeyOpts)) (n : Nat),
      sendKeysLoop s env n keys
        = (keys.flatMap (perKeyEvents s), [], true, n + 3 * keys.length) := by
  intro keys
  induction keys with
  | nil => intro n; simp [sendKeysLoop]
  | cons kv rest ih =>
    intro n
    obtain ⟨k, opts⟩ := kv
    simp [sendKeysLoop, henv, perKeyEvents, ih (n + 3)]
    omega

/-- With every remote operation succeeding, `send_keys` on a machine that is
not in RESCUE state and does not store keys on the machine creates the key
directory, runs the per-key steps for every configured key, touches the
sentinel file, and leaves no scratch file behind. -/
theorem send_keys_allOk (env : Nat → Bool) (s : MachineState) (henv : ∀ n, env n = true)
    (h1 : s.state ≠ Lifecycle.RESCUE) (h2 : s.store_keys_on_machine = false) :
    send_keys env s =
      ⟨Event.run (run_command s mkdirKeysCmd) true ::
        (s.keys.flatMap (perKeyEvents s)
          ++ [Event.run (run_command s "touch /run/keys/done") true]),
       [], true⟩ := by
  simp [send_keys, h1, h2, henv, sendKeysLoop_allOk s env henv]

/-- If the `send_keys` loop ends without a raised failure, no scratch file
remains. -/
theorem sendKeysLoop_files_nil_of_ok (s : MachineState) (env : Nat → Bool) :
    ∀ (keys : List (String × KeyOpts)) (n : Nat),
      (sendKeysLoop s env n keys).2.2.1 = true →
      (sendKeysLoop s env n keys).2.1 = [] := by
  intro keys
  induction keys with
  | nil => intro n _; simp [sendKeysLoop]
  | cons kv rest ih =>
    intro n hok
    obtain ⟨k, opts⟩ := kv
    by_cases h0 : env n = false
    · simp [sendKeysLoop, h0] at hok
    · by_cases hu : env (n + 1) = false
      · simp [sendKeysLoop, h0, hu] at hok
      · by_cases hc : env (n + 2) = false
        · simp [sendKeysLoop, h0, hu, hc] at hok
        · simp [sendKeysLoop, h0, hu, hc] at hok ⊢
          exact ih (n + 3) hok

/-- C8, amended: per secret, `send_keys` performs delete-remote, upload,
set-ownership then set-permissions in that order (the events of
`perKeyEvents`), and the local scratch copy is deleted whenever the call
completes without a raised remote failure; a remote failure aborts the call
and the scratch copy then remains on disk (shown separately by
`send_keys_cleanup_cex`). -/
theorem send_keys_order_cleanup (env : Nat → Bool) (s : MachineState) :
    ((send_keys env s).success = true → (send_keys env s).localFiles = []) ∧
    (s.state ≠ Lifecycle.RESCUE → s.store_keys_on_machine = false → (∀ n, env n = true) →
      (send_keys env s).events =
        Event.run (run_command s mkdirKeysCmd) true ::
          (s.keys.flatMap (perKeyEvents s)
            ++ [Event.run (run_command s "touch /run/keys/done") true])) := by
  constructor
  · intro h
    by_cases hr : s.state = Lifecycle.RESCUE
    · simp [send_keys, hr]
    · by_cases hk : s.store_keys_on_machine
      · simp [send_keys, hr, hk]
      · by_cases h0 : env 0 = false
        · simp [send_keys, hr, hk, h0] at h
        · by_cases hok : (sendKeysLoop s env 1 s.keys).2.2.1 = false
          · simp [send_keys, hr, hk, h0, hok] at h
          · have hfiles := sendKeysLoop_files_nil_of_ok s env s.keys 1
              (Bool.not_eq_false _ |>.mp hok)
            by_cases hl : env (sendKeysLoop s env 1 s.keys).2.2.2 = false <;>
              simp [send_keys, hr, hk, h0, hok, hl, hfiles]
  · intro h1 h2 henv
    rw [send_keys_allOk env s henv h1 h2]

/-- Instantiation of `send_keys_order_cleanup` on the sample UP machine with
all remote operations succeeding: the full ordered event list appears and the
scratch file is cleaned up. -/
theorem send_keys_order_cleanup_witness :
    (send_keys (fun _ => true) (sampleState Lifecycle.UP)).localFiles = [] ∧
    (send_keys (fun _ => true) (sampleState Lifecycle.UP)).events =
      Event.run (run_command (sampleState Lifecycle.UP) mkdirKeysCmd) true ::
        ((sampleState Lifecycle.UP).keys.flatMap (perKeyEvents (sampleState Lifecycle.UP))
          ++ [Event.run (run_command (sampleState Lifecycle.UP) "touch /run/keys/done") true]) :=
  ⟨(send_keys_order_cleanup (fun _ => true) (sampleState Lifecycle.UP)).1 (by decide),
   (send_keys_order_cleanup (fun _ => true) (sampleState Lifecycle.UP)).2
     (by decide) rfl (fun _ => rfl)⟩

/-- A failure oracle under which the second remote operation of a call (the
per-key remote delete, for the first key) raises. -/
def failSecondRemote : Nat → Bool := fun n => n != 1

/-- C8, counterexample to the claim as stated: when a remote step of
`send_keys` fails (here the remote `rm -f` of the first key), the call aborts
and the local scratch copy of the secret remains on disk — there is no scoped
cleanup on the failure path. -/
theorem send_keys_cleanup_cex :
    (send_keys failSecondRemote (sampleState Lifecycle.UP)).success = false ∧
    (send_keys failSecondRemote (sampleState Lifecycle.UP)).localFiles = ["/tmp/key-m"] := by
  constructor <;> decide

/-- The all-success failure oracle. -/
def allOk : Nat → Bool := fun _ => true

/-- The uploads of the per-key loop: one per configured key, from the shared
scratch path to the key's runtime location. -/
theorem uploadsOf_perKey_flatMap (s : MachineState) :
    ∀ keys : List (String × KeyOpts),
      uploadsOf (keys.flatMap (perKeyEvents s))
        = keys.map (fun kv => (keyTmpPath s, "/run/keys/" ++ kv.1)) := by
  intro keys
  induction keys with
  | nil => rfl
  | cons kv rest ih =>
    simp [uploadsOf, perKeyEvents, List.filterMap_append] at ih ⊢
    exact ih

/-- C3: with `store_keys_on_machine` unset, a successful `reboot_sync` ends
with the state UP, the persisted `ssh_pinged` flag and the transient
confirmed-this-operation flag set, and its event trace is the reboot command,
the SSH reset, the port-close and port-open waits, then exactly one `send_keys`
pass; that pass uploads every configured key exactly once (the uploads of the
whole trace are exactly one per configured key). -/
theorem reboot_sync_up_and_keys (env : Nat → Bool) (s : MachineState)
    (henv : ∀ n, env n = true) (hkeys : s.store_keys_on_machine = false) :
    (reboot_sync env s).1.state = Lifecycle.UP ∧
    (reboot_sync env s).1.ssh_pinged = true ∧
    (reboot_sync env s).1.sshPingedThisTime = true ∧
    (reboot_sync env s).2 =
      [Event.run (run_command s
          (if s.state = Lifecycle.RESCUE then "(sleep 2; reboot) &" else "systemctl reboot")) false,
       Event.sshReset,
       Event.waitPort s.ssh_port false, Event.waitPort s.ssh_port true,
       Event.run mkdirKeysCmd true]
      ++ (s.keys.flatMap (perKeyEvents (reboot_sync env s).1)
          ++ [Event.run "touch /run/keys/done" true]) ∧
    uploadsOf (reboot_sync env s).2
      = s.keys.map (fun kv => (keyTmpPath s, "/run/keys/" ++ kv.1)) := by
  have hs2 : (reboot_sync env s).1
      = { s with state := Lifecycle.UP, ssh_pinged := true, sshPingedThisTime := true } := rfl
  have hsend := send_keys_allOk env (reboot_sync env s).1 henv
    (by rw [hs2]; simp) (by rw [hs2]; exact hkeys)
  have htr : (reboot_sync env s).2
      = [Event.run (run_command s
            (if s.state = Lifecycle.RESCUE then "(sleep 2; reboot) &" else "systemctl reboot")) false,
         Event.sshReset, Event.waitPort s.ssh_port false, Event.waitPort s.ssh_port true]
        ++ (send_keys env (reboot_sync env s).1).events := rfl
  refine ⟨rfl, rfl, rfl, ?_, ?_⟩
  · rw [htr, hsend]
    simp [run_command, hs2]
  · rw [htr, hsend]
    have h1 := uploadsOf_perKey_flatMap (reboot_sync env s).1 (reboot_sync env s).1.keys
    rw [hs2] at h1 ⊢
    simp [uploadsOf, List.filterMap_append, keyTmpPath] at h1 ⊢
    exact h1

/-- Instantiation of `reboot_sync_up_and_keys` on the sample STOPPED machine:
it comes out UP with both flags set and its trace uploads exactly its one
configured key. -/
theorem reboot_sync_up_and_keys_witness :
    (reboot_sync allOk (sampleState Lifecycle.STOPPED)).1.state = Lifecycle.UP ∧
    (reboot_sync allOk (sampleState Lifecycle.STOPPED)).1.ssh_pinged = true ∧
    (reboot_sync allOk (sampleState Lifecycle.STOPPED)).1.sshPingedThisTime = true ∧
    uploadsOf (reboot_sync allOk (sampleState Lifecycle.STOPPED)).2
      = [("/tmp/key-m", "/run/keys/secret")] := by
  have h := reboot_sync_up_and_keys allOk (sampleState Lifecycle.STOPPED)
    (fun _ => rfl) rfl
  exact ⟨h.1, h.2.1, h.2.2.1, by rw [h.2.2.2.2]; rfl⟩

/-- Dropping the dot-free head of `name ++ tail` when `name` contains a dot
stops at the first dot of `name`: some mid part of `name` and all of `tail`
survive behind it. -/
theorem dropWhile_dot_append (name tail : List Char) (h : '.' ∈ name) :
    ∃ n2, (name ++ tail).dropWhile notDot = '.' :: (n2 ++ tail) ∧
      ∀ c ∈ n2, c ∈ name := by
  induction name with
  | nil => cases h
  | cons a t ih =>
    by_cases ha : a = '.'
    · subst ha
      refine ⟨t, ?_, fun c hc => List.mem_cons_of_mem _ hc⟩
      rw [List.cons_append, List.dropWhile_cons, if_neg]
      intro hcontra
      exact Bool.false_ne_true ((by rfl : notDot '.' = false).symm.trans hcontra)
    · have h' : '.' ∈ t := by
        rcases List.mem_cons.mp h with h | h
        · exact absurd h.symm ha
        · exact h
      obtain ⟨n2, hd, hmem⟩ := ih h'
      refine ⟨n2, ?_, fun c hc => List.mem_cons_of_mem _ (hmem c hc)⟩
      rw [List.cons_append, List.dropWhile_cons, if_pos (by simp [notDot, ha]), hd]

/-- A dot-free pattern containing a space is never a prefix of
`n2 ++ '.' :: zs` when `n2` is space-free: the prefix would have to place its
space inside `n2` or its dot position on a non-dot pattern character. -/
theorem not_prefix_across_dot (pat : List Char) :
    ∀ (n2 zs : List Char), (∀ c ∈ pat, c ≠ '.') → ' ' ∈ pat → (∀ c ∈ n2, c ≠ ' ') →
      pat.isPrefixOf (n2 ++ '.' :: zs) = false := by
  induction pat with
  | nil => intro n2 zs _ hsp _; cases hsp
  | cons p ps ih =>
    intro n2 zs hdot hsp hn2
    cases n2 with
    | nil =>
      have hp : p ≠ '.' := hdot p (List.mem_cons_self _ _)
      simp [List.isPrefixOf, hp]
    | cons b n2' =>
      by_cases hpb : p = b
      · have hpsp : ' ' ∈ ps := by
          rcases List.mem_cons.mp hsp with h | h
          · exact absurd (h.trans hpb).symm (hn2 b (List.mem_cons_self b n2'))
          · exact h
        have hrec := ih n2' zs (fun c hc => hdot c (List.mem_cons_of_mem _ hc)) hpsp
          (fun c hc => hn2 c (List.mem_cons_of_mem _ hc))
        simp [List.isPrefixOf, hrec]
      · simp [List.isPrefixOf, hpb]

/-- C10: the inactive-mount rule of `_check` only matches unit names whose
stem before `.mount` is dot-free: on any status line whose unit name
`<name>.mount` has a dot inside `<name>` (and no space, `systemctl` fields
being space-separated), the rule does not match, and in particular the line
`a.b.mount loaded active inactive dead` contributes to neither unit list even
though no `sys-`/`dev-` exclusion applies. -/
theorem mount_rule_requires_dotfree_stem :
    (∀ (name rest : List Char), '.' ∈ name → ' ' ∉ name →
      reMountInactive (name ++ (".mount ".toList) ++ rest) = none) ∧
    checkUnits [("a.b.mount loaded active inactive dead").toList] = ([], []) := by
  constructor
  · intro name rest hdot hsp
    rw [List.append_assoc]
    obtain ⟨n2, hd, hmem⟩ :=
      dropWhile_dot_append name ((".mount ".toList) ++ rest) hdot
    have hpref : (".mount ".toList).isPrefixOf
        (List.dropWhile notDot (name ++ ((".mount ".toList) ++ rest))) = false := by
      rw [hd]
      exact not_prefix_across_dot ("mount ".toList) n2 (("mount ".toList) ++ rest)
        (by decide) (by decide) (fun c hc heq => hsp (heq ▸ hmem c hc))
    simp only [reMountInactive]
    exact if_neg (fun hcond => Bool.false_ne_true (hpref.symm.trans hcond.2.1))
  · decide

/-- Instantiation of `mount_rule_requires_dotfree_stem` at the dotted unit
name `a.b.mount`. -/
theorem mount_rule_requires_dotfree_stem_witness :
    reMountInactive (("a.b").toList ++ (".mount ".toList)
      ++ ("loaded active inactive dead").toList) = none :=
  mount_rule_requires_dotfree_stem.1 ("a.b").toList ("loaded active inactive dead").toList
    (by decide) (by decide)
